import Mathlib

/-
Shallow embedding of turnkey-chroot (src/chroot/__init__.py).

External effects (the /proc/mounts read, the mount/umount subprocesses, the
qemu binary copy/removal) are modelled as oracles and effect lists:
`isM : String -> Bool` is the point-in-time answer of `is_mounted` for a
target, `mOk : String -> Bool` says whether the `mount` subprocess for a
target exits successfully, and each operation returns the list of subprocess
argument vectors it issued, in order.  Path resolution (`os.path.abspath`,
`os.path.realpath`) is an external collaborator: the embedding takes the
already-resolved absolute root string.
-/

set_option autoImplicit false
set_option linter.unusedVariables false

namespace TurnkeyChroot

/-- Python exceptions raised by the module: `ChrootError` and its subclass
`MountError` (which carries the failing subprocess argument vector, standing
for `CalledProcessError.args`). -/
inductive PyErr where
  | chrootError (msg : String)
  | mountError (cmd : List String)
deriving DecidableEq, Repr

/-- One mount profile entry `(switch, host_mnt, chr_mnt)` as in the Python
3-tuples of `MNT_DEFAULT` / `MNT_FULL`. -/
structure MountSpec where
  switch : String
  host : String
  target : String
deriving DecidableEq, Repr

/-- `MNT_DEFAULT` from the source: the three type-mounts. -/
def MNT_DEFAULT : List MountSpec :=
  [⟨"-t", "proc", "proc"⟩,
   ⟨"-t", "sysfs", "sys"⟩,
   ⟨"-t", "devpts", "dev/pts"⟩]

/-- `MNT_FULL` from the source: the five bind mounts (initial value of the
module-level mutable list). -/
def MNT_FULL : List MountSpec :=
  [⟨"--bind", "/proc", "proc"⟩,
   ⟨"--bind", "/sys", "sys"⟩,
   ⟨"--bind", "/dev", "dev"⟩,
   ⟨"--bind", "/dev/pts", "dev/pts"⟩,
   ⟨"--bind", "/run", "run"⟩]

/-- `MNT_ARM_ON_AMD` from the source. -/
def MNT_ARM_ON_AMD : MountSpec :=
  ⟨"--bind", "/proc/sys/fs/binfmt_misc", "proc/sys/fs/binfmt_misc"⟩

/-- Python string `<` : lexicographic comparison by code point. -/
def charListLt : List Char → List Char → Bool
  | _, [] => false
  | [], _ :: _ => true
  | a :: as, b :: bs =>
      if a.val < b.val then true
      else if a.val == b.val then charListLt as bs
      else false

/-- Python `a < b` on strings. -/
def strLtB (a b : String) : Bool := charListLt a.toList b.toList

/-- Python `<` on the 3-tuples of a mount profile (lexicographic on the
components). -/
def specLt (a b : MountSpec) : Bool :=
  strLtB a.switch b.switch ||
    (a.switch == b.switch &&
      (strLtB a.host b.host ||
        (a.host == b.host && strLtB a.target b.target)))

/-- Insert into an already sorted list (stable, ascending). -/
def insertSpec (x : MountSpec) : List MountSpec → List MountSpec
  | [] => [x]
  | y :: ys => if specLt y x then y :: insertSpec x ys else x :: y :: ys

/-- Python `sorted` on a mount profile (ascending by tuple order). -/
def sortSpecs : List MountSpec → List MountSpec
  | [] => []
  | x :: xs => insertSpec x (sortSpecs xs)

/-- Whether a string begins with a slash. -/
def headIsSlash (s : String) : Bool :=
  match s.toList with
  | c :: _ => c == '/'
  | [] => false

/-- Whether a string ends with a slash. -/
def lastIsSlash (s : String) : Bool :=
  match s.toList.getLast? with
  | some c => c == '/'
  | none => false

/-- `os.path.join(a, b)` for the cases the module exercises: if `b` is
absolute it wins; otherwise a single separator is inserted unless `a` is
empty or already ends in one. -/
def pjoin (a b : String) : String :=
  if headIsSlash b then b
  else if a == "" || lastIsSlash a then a ++ b
  else a ++ "/" ++ b

/-- Python `dict` assignment `d[k] = v`: update the (unique) entry for `k`,
or append a new entry in insertion order. -/
def dictSet : List (String × Bool) → String → Bool → List (String × Bool)
  | [], k, v => [(k, v)]
  | kv :: rest, k, v =>
      if kv.1 = k then (k, v) :: rest else kv :: dictSet rest k v

/-- Python `dict` lookup `d[k]` (all lookups performed by the module are on
keys initialised in `__init__`, so a default of `false` never matters). -/
def dictGet : List (String × Bool) → String → Bool
  | [], _ => false
  | kv :: rest, k => if kv.1 = k then kv.2 else dictGet rest k

/-- The mutable state of a `MagicMounts` object: `self.profile`,
`self.paths` (targets already joined onto the root), `self.mounted`, and
`self.qemu_arch_static`. -/
structure MMState where
  profile : List MountSpec
  paths : List MountSpec
  mounted : List (String × Bool)
  qemuArchStatic : Option (String × String)
deriving DecidableEq, Repr

/-- The argument vector `['mount', switch, host_mnt, chr_mnt]` passed to
`subprocess.run` for one spec. -/
def mountCmdOf (p : MountSpec) : List String :=
  ["mount", p.switch, p.host, p.target]

/-- The loop body of `MagicMounts.mount`: walk `self.paths`; skip (and mark
mounted) anything `is_mounted` reports present; otherwise run the mount
subprocess, marking mounted on success and raising `MountError` (aborting the
walk) on failure.  Returns the new `mounted` dict, the issued subprocess
argument vectors in order, and the raised exception if any. -/
def mountLoop (isM mOk : String → Bool) :
    List MountSpec → List (String × Bool) →
    List (String × Bool) × List (List String) × Option PyErr
  | [], d => (d, [], none)
  | p :: ps, d =>
      if isM p.target then
        mountLoop isM mOk ps (dictSet d p.target true)
      else if mOk p.target then
        let r := mountLoop isM mOk ps (dictSet d p.target true)
        (r.1, mountCmdOf p :: r.2.1, r.2.2)
      else
        (d, [mountCmdOf p], some (PyErr.mountError (mountCmdOf p)))

/-- Result of `MagicMounts.mount`: the state afterwards, the mount
subprocess calls issued, the `shutil.copy` calls performed (source,
destination), and the exception raised if any. -/
structure MountOutcome where
  st : MMState
  cmds : List (List String)
  copies : List (String × String)
  err : Option PyErr
deriving DecidableEq, Repr

/-- `MagicMounts.mount`: run the loop over `self.paths`; if it completed
without raising and `self.qemu_arch_static` is set, copy the emulation
binary. -/
def magicMount (st : MMState) (isM mOk : String → Bool) : MountOutcome :=
  let r := mountLoop isM mOk st.paths st.mounted
  { st := { st with mounted := r.1 },
    cmds := r.2.1,
    copies :=
      match r.2.2, st.qemuArchStatic with
      | none, some q => [q]
      | _, _ => [],
    err := r.2.2 }

/-- The loop body of `MagicMounts.umount`: walk the given (already reversed)
paths; for each target whose `mounted` flag is set, issue `umount -f` and
clear the flag regardless of the subprocess outcome (`subprocess.run` is
called without `check=True`, so umount failures never raise). -/
def umountLoop : List (String × Bool) → List MountSpec →
    List (String × Bool) × List (List String)
  | d, [] => (d, [])
  | d, p :: ps =>
      if dictGet d p.target then
        let r := umountLoop (dictSet d p.target false) ps
        (r.1, ["umount", "-f", p.target] :: r.2)
      else
        umountLoop d ps

/-- Result of `MagicMounts.umount`: the state afterwards, the umount
subprocess calls issued, and the `os.remove` attempts (tolerant of
`FileNotFoundError`). -/
structure UmountOutcome where
  st : MMState
  cmds : List (List String)
  removals : List String
deriving DecidableEq, Repr

/-- `MagicMounts.umount`: remove the staged qemu binary if configured, then
walk `reversed(self.paths)` unmounting every target whose flag is set. -/
def magicUmount (st : MMState) : UmountOutcome :=
  let rem :=
    match st.qemuArchStatic with
    | some q => [q.2]
    | none => []
  let r := umountLoop st.mounted st.paths.reverse
  { st := { st with mounted := r.1 }, cmds := r.2, removals := rem }

/-- Python truthiness of an `os.getenv` result: unset (`None`) and the empty
string are falsy. -/
def truthy : Option String → Bool
  | none => false
  | some s => s != ""

/-- The `ChrootError` message raised for `FAB_ARCH` without `HOST_ARCH`. -/
def archErrMsg : String := "If FAB_ARCH is set, HOST_ARCH is also required"

/-- Result of `MagicMounts.__init__`: the value of the module-level
`MNT_FULL` list after construction (it is mutated in place on an
architecture mismatch), the constructed object when no exception escaped,
the mount subprocess calls issued, the copies performed, and the exception
raised if any. -/
structure InitResult where
  mntFullOut : List MountSpec
  state : Option MMState
  cmds : List (List String)
  copies : List (String × String)
  err : Option PyErr
deriving DecidableEq, Repr

/-- `MagicMounts.__init__`.  `mntFull` is the current value of the mutable
module-level `MNT_FULL` list; `mntProfile` is the `mnt_profile` argument,
which the source ignores (`self.profile = MNT_FULL` — the selection line is
commented out); `root` is the `abspath`-resolved root.  Reads `HOST_ARCH`
and `FAB_ARCH`, raises `ChrootError` when `FAB_ARCH` is truthy but
`HOST_ARCH` is not, appends `MNT_ARM_ON_AMD` to `MNT_FULL` in place on a
genuine mismatch, builds `self.paths` from `sorted(self.profile)` with
root-joined targets, initialises every `mounted` flag to `False`, and
finally calls `self.mount()`. -/
def magicMountsInit (mntFull : List MountSpec)
    (hostArch fabArch : Option String)
    (mntProfile : List MountSpec) (root : String)
    (isM mOk : String → Bool) : InitResult :=
  if truthy fabArch && !truthy hostArch then
    { mntFullOut := mntFull, state := none, cmds := [], copies := [],
      err := some (PyErr.chrootError archErrMsg) }
  else
    let mismatch := truthy fabArch && truthy hostArch && hostArch != fabArch
    let mntFull2 := if mismatch then mntFull ++ [MNT_ARM_ON_AMD] else mntFull
    let profile := mntFull2
    let qemu : Option (String × String) :=
      if mismatch then
        some ("/usr/bin/qemu-aarch64-static",
              pjoin root "usr/bin/qemu-aarch64-static")
      else none
    let paths := (sortSpecs profile).map
      (fun p => { p with target := pjoin root p.target })
    let d := paths.foldl (fun d p => dictSet d p.target false) []
    let st0 : MMState :=
      { profile := profile, paths := paths, mounted := d,
        qemuArchStatic := qemu }
    let r := magicMount st0 isM mOk
    { mntFullOut := mntFull2,
      state := if r.err.isSome then none else some r.st,
      cmds := r.cmds, copies := r.copies, err := r.err }

/-- `Chroot.__init__` (the part relevant to mounting): select `MNT_DEFAULT`
when `mnt_profile` is falsy (`None` or the empty list) and construct the
`MagicMounts` with the `realpath`-resolved root (`newroot` is taken already
resolved). -/
def chrootInit (mntFull : List MountSpec)
    (hostArch fabArch : Option String)
    (newroot : String) (mntProfile : Option (List MountSpec))
    (isM mOk : String → Bool) : InitResult :=
  let profile :=
    match mntProfile with
    | none => MNT_DEFAULT
    | some [] => MNT_DEFAULT
    | some l => l
  magicMountsInit mntFull hostArch fabArch profile newroot isM mOk

/-- A character `shlex.quote` considers safe, per the `_find_unsafe` regex
compiled with `re.ASCII`: ASCII alphanumerics, underscore, and the
characters `@ % + = : , . / -` (everything else is unsafe). -/
def shlexSafeChar (c : Char) : Bool :=
  ('a' ≤ c && c ≤ 'z') || ('A' ≤ c && c ≤ 'Z') || ('0' ≤ c && c ≤ '9') ||
    c == '_' || c == '@' || c == '%' || c == '+' || c == '=' || c == ':' ||
    c == ',' || c == '.' || c == '/' || c == '-'

/-- A single-quote character as a string. -/
def squote : String := String.singleton (Char.ofNat 39)

/-- `shlex.quote`: empty strings become a pair of quotes, all-safe strings
are returned unchanged, everything else is wrapped in single quotes with
embedded single quotes rewritten to the quote-escape sequence. -/
def shlexQuote (s : String) : String :=
  if s == "" then squote ++ squote
  else if s.toList.all shlexSafeChar then s
  else squote ++ s.replace squote (squote ++ "\"" ++ squote ++ "\"" ++ squote)
         ++ squote

/-- Python `' '.join(tokens)`. -/
def joinSpace : List String → String
  | [] => ""
  | [s] => s
  | s :: rest => s ++ " " ++ joinSpace rest

/-- The `ChrootError` message of `Chroot._prepare_command` (the source
f-string also interpolates the offending command; the fixed prefix is kept).
Note the missing space between the two source string literals. -/
def prepareErrMsg : String :=
  "Output redirects and pipes not supported infab-chroot"

/-- `Chroot._prepare_command`: reject an argument tuple containing a literal
`>`, `<` or `|` token with `ChrootError`; otherwise quote every token with
`shlex.quote` and build `['chroot', chr_path, 'sh', '-c', joined]`.  (The
`TypeError` branch of the source loop is unreachable for string tokens, so
the quoting is a plain map.)  `Chroot.run` passes the `.ok` payload straight
to `subprocess.run`; an `.error` propagates before any subprocess is
spawned. -/
def prepareCommand (chrPath : String) (commands : List String) :
    Except PyErr (List String) :=
  if commands.contains ">" || commands.contains "<" || commands.contains "|"
  then Except.error (PyErr.chrootError prepareErrMsg)
  else Except.ok
    (["chroot", chrPath, "sh", "-c", joinSpace (commands.map shlexQuote)])

/-- The argument of `is_mounted`: a Python `str`, a Python `bytes`, or a
non-`str` `os.PathLike` object (e.g. `pathlib.Path`) whose `os.fspath` is
the given string. -/
inductive PyPath where
  | ofStr : String → PyPath
  | ofBytes : List UInt8 → PyPath
  | pathLike : String → PyPath
deriving DecidableEq, Repr

/-- Python `s.split(sep)` with an explicit one-character separator (no run
collapsing, empty fields kept), on a character list. -/
def splitCharList (sep : Char) : List Char → List (List Char)
  | [] => [[]]
  | c :: cs =>
      if c == sep then [] :: splitCharList sep cs
      else
        match splitCharList sep cs with
        | [] => [[c]]
        | g :: gs => (c :: g) :: gs

/-- Python `line.split(' ')` on a string. -/
def pySplitSpace (s : String) : List String :=
  (splitCharList ' ' s.toList).map (fun l => ⟨l⟩)

/-- Python `bytes.split(b' ')` on a byte string. -/
def splitByteList (sep : UInt8) : List UInt8 → List (List UInt8)
  | [] => [[]]
  | c :: cs =>
      if c == sep then [] :: splitByteList sep cs
      else
        match splitByteList sep cs with
        | [] => [[c]]
        | g :: gs => (c :: g) :: gs

/-- The text-mode scan of `is_mounted`: for each line, `line.split(' ')`
must yield at least two fields (otherwise the tuple unpacking raises
`ValueError`, modelled as `none`); return `true` at the first line whose
second field satisfies the comparison with the queried path. -/
def scanLinesStr (cmp : String → Bool) : List String → Option Bool
  | [] => some false
  | l :: ls =>
      match pySplitSpace l with
      | _ :: guest :: _ => if cmp guest then some true else scanLinesStr cmp ls
      | _ => none

/-- The binary-mode scan of `is_mounted`, over byte lines split on the byte
for a space. -/
def scanLinesBytes (cmp : List UInt8 → Bool) : List (List UInt8) → Option Bool
  | [] => some false
  | l :: ls =>
      match splitByteList 32 l with
      | _ :: guest :: _ =>
          if cmp guest then some true else scanLinesBytes cmp ls
      | _ => none

/-- `is_mounted`.  `tableLines` are the lines of `/proc/mounts` as yielded
by iterating the file in text mode (binary mode sees their UTF-8 bytes).
The source compares `guest == path` against the ORIGINAL argument, not
against `os.fspath(path)`: for a `str` query this is string equality, for a
`bytes` query byte equality, and for any other path-like object Python's
cross-type `==` between the `str` field and the object is always `False`. -/
def pyIsMounted (tableLines : List String) (p : PyPath) : Option Bool :=
  match p with
  | PyPath.ofStr s => scanLinesStr (fun guest => guest == s) tableLines
  | PyPath.ofBytes bs =>
      scanLinesBytes (fun guest => guest == bs)
        (tableLines.map (fun l => l.toUTF8.toList))
  | PyPath.pathLike _ => scanLinesStr (fun _ => false) tableLines

/-- Reading back the key just written with `dictSet` yields the new value. -/
theorem dictGet_set_self (d : List (String × Bool)) (k : String) (v : Bool) :
    dictGet (dictSet d k v) k = v := by
  induction d with
  | nil => simp [dictSet, dictGet]
  | cons kv rest ih =>
      by_cases h : kv.1 = k <;> simp [dictSet, dictGet, h, ih]

/-- `dictSet` leaves every other key unchanged. -/
theorem dictGet_set_ne (d : List (String × Bool)) (k : String) (v : Bool)
    (t : String) (h : t ≠ k) : dictGet (dictSet d k v) t = dictGet d t := by
  induction d with
  | nil => simp [dictSet, dictGet, Ne.symm h]
  | cons kv rest ih =>
      by_cases hk : kv.1 = k
      · subst hk
        simp [dictSet, dictGet, Ne.symm h]
      · simp [dictSet, dictGet, hk, ih]

/-- A target in the mapped targets of a cons, different from the head's
target, is among the tail's targets. -/
theorem mem_targets_tail {t : String} {p : MountSpec} {ps : List MountSpec}
    (hl : t ∈ (p :: ps).map (fun q => q.target)) (hp : t ≠ p.target) :
    t ∈ ps.map (fun q => q.target) := by
  rcases List.mem_map.1 hl with ⟨q, hq, hqt⟩
  rcases List.mem_cons.1 hq with rfl | hq
  · exact absurd hqt.symm hp
  · exact List.mem_map.2 ⟨q, hq, hqt⟩

/-- When everything is already mounted, the mount loop issues no subprocess
call, raises nothing, and marks every walked target mounted. -/
theorem mountLoop_all_skip (mOk : String → Bool) (l : List MountSpec)
    (d : List (String × Bool)) :
    mountLoop (fun _ => true) mOk l d =
      (l.foldl (fun d p => dictSet d p.target true) d, [], none) := by
  induction l generalizing d with
  | nil => rfl
  | cons p ps ih => simp [mountLoop, ih]

/-- When nothing is pre-mounted and every mount subprocess succeeds, the
mount loop issues exactly one mount call per walked spec, in walk order. -/
theorem mountLoop_fresh_ok (l : List MountSpec) (d : List (String × Bool)) :
    mountLoop (fun _ => false) (fun _ => true) l d =
      (l.foldl (fun d p => dictSet d p.target true) d,
       l.map mountCmdOf, none) := by
  induction l generalizing d with
  | nil => rfl
  | cons p ps ih => simp [mountLoop, ih]

/-- After folding `dictSet _ _ true` over a list, every key that was already
`true` or whose spec is in the list reads `true`. -/
theorem dictGet_foldl_set_true (l : List MountSpec) (d : List (String × Bool))
    (t : String) (h : dictGet d t = true ∨ t ∈ l.map (fun p => p.target)) :
    dictGet (l.foldl (fun d p => dictSet d p.target true) d) t = true := by
  induction l generalizing d with
  | nil => simpa using h
  | cons p ps ih =>
      simp only [List.foldl_cons]
      apply ih
      by_cases hp : t = p.target
      · subst hp
        exact Or.inl (dictGet_set_self d p.target true)
      · rcases h with h | h
        · exact Or.inl ((dictGet_set_ne d p.target true t hp).trans h)
        · exact Or.inr (mem_targets_tail h hp)

/-- The umount loop issues an `umount -f` for every walked target whose
mounted flag is set. -/
theorem umountLoop_mem (l : List MountSpec) (d : List (String × Bool))
    (t : String) (hd : dictGet d t = true)
    (hl : t ∈ l.map (fun p => p.target)) :
    ["umount", "-f", t] ∈ (umountLoop d l).2 := by
  induction l generalizing d with
  | nil => simp at hl
  | cons p ps ih =>
      by_cases hp : t = p.target
      · subst hp
        simp [umountLoop, hd]
      · have hl' := mem_targets_tail hl hp
        by_cases hm : dictGet d p.target = true
        · simp only [umountLoop, hm, if_true]
          refine List.mem_cons_of_mem _ (ih (dictSet d p.target false) ?_ hl')
          rwa [dictGet_set_ne d p.target false t hp]
        · have hm' : dictGet d p.target = false := by simpa using hm
          simp only [umountLoop, hm', Bool.false_eq_true, if_false]
          exact ih d hd hl'

/-- After the umount loop, every walked target (and every key that was
already clear) reads `false`. -/
theorem dictGet_umountLoop (l : List MountSpec) (d : List (String × Bool))
    (t : String)
    (h : dictGet d t = false ∨ t ∈ l.map (fun p => p.target)) :
    dictGet (umountLoop d l).1 t = false := by
  induction l generalizing d with
  | nil => simpa using h
  | cons p ps ih =>
      by_cases hm : dictGet d p.target = true
      · simp only [umountLoop, hm, if_true]
        apply ih
        by_cases hp : t = p.target
        · subst hp
          exact Or.inl (dictGet_set_self d p.target false)
        · rcases h with h | h
          · exact Or.inl ((dictGet_set_ne d p.target false t hp).trans h)
          · exact Or.inr (mem_targets_tail h hp)
      · have hm' : dictGet d p.target = false := by simpa using hm
        simp only [umountLoop, hm', Bool.false_eq_true, if_false]
        apply ih
        by_cases hp : t = p.target
        · subst hp
          exact Or.inl hm'
        · rcases h with h | h
          · exact Or.inl h
          · exact Or.inr (mem_targets_tail h hp)

/-- If every walked target's flag is clear, the umount loop is a literal
no-op. -/
theorem umountLoop_noop (l : List MountSpec) (d : List (String × Bool))
    (h : ∀ p ∈ l, dictGet d p.target = false) : umountLoop d l = (d, []) := by
  induction l with
  | nil => rfl
  | cons p ps ih =>
      have hp := h p (List.mem_cons_self p ps)
      simp only [umountLoop, hp, Bool.false_eq_true, if_false]
      exact ih (fun q hq => h q (List.mem_cons_of_mem p hq))

/-- C1: a session constructed without an explicit mount profile does NOT
mount the default minimal profile.  `Chroot.__init__` selects `MNT_DEFAULT`
and passes it down, but `MagicMounts.__init__` discards its `mnt_profile`
argument and always uses the module-level `MNT_FULL` list, so the commands
issued are the five bind mounts (in sorted order), not the three
type-mounts. -/
theorem c1_default_profile_ignored :
    (chrootInit MNT_FULL none none "/chroot" none
        (fun _ => false) (fun _ => true)).state.map MMState.profile =
      some MNT_FULL ∧
    MNT_FULL ≠ MNT_DEFAULT ∧
    (chrootInit MNT_FULL none none "/chroot" none
        (fun _ => false) (fun _ => true)).cmds =
      [["mount", "--bind", "/dev", "/chroot/dev"],
       ["mount", "--bind", "/dev/pts", "/chroot/dev/pts"],
       ["mount", "--bind", "/proc", "/chroot/proc"],
       ["mount", "--bind", "/run", "/chroot/run"],
       ["mount", "--bind", "/sys", "/chroot/sys"]] ∧
    (chrootInit MNT_FULL none none "/chroot" none
        (fun _ => false) (fun _ => true)).cmds ≠
      MNT_DEFAULT.map
        (fun p => ["mount", p.switch, p.host, pjoin "/chroot" p.target]) :=
  ⟨rfl, by decide, rfl, by decide⟩

/-- C2 counterexample: for the profile `MNT_FULL` given to the orchestrator
(the profile given is also the one actually used), the mount subprocess
calls are issued in Python-sorted tuple order (`dev`, `dev/pts`, `proc`,
`run`, `sys`), which differs from the profile's declared order (`proc`,
`sys`, `dev`, `dev/pts`, `run`). -/
theorem c2_declared_order_counterexample :
    (magicMountsInit MNT_FULL none none MNT_FULL "/c"
        (fun _ => false) (fun _ => true)).cmds =
      [["mount", "--bind", "/dev", "/c/dev"],
       ["mount", "--bind", "/dev/pts", "/c/dev/pts"],
       ["mount", "--bind", "/proc", "/c/proc"],
       ["mount", "--bind", "/run", "/c/run"],
       ["mount", "--bind", "/sys", "/c/sys"]] ∧
    (magicMountsInit MNT_FULL none none MNT_FULL "/c"
        (fun _ => false) (fun _ => true)).cmds ≠
      MNT_FULL.map
        (fun p => ["mount", p.switch, p.host, pjoin "/c" p.target]) :=
  ⟨rfl, by decide⟩

/-- C2 (amended): `Mount()` processes the mount specs in the ascending
lexicographic order of the spec tuples — Python `sorted` of the profile in
use, which is always the module-level `MNT_FULL` list — not in the declared
profile order.  With nothing pre-mounted and every mount succeeding, the
issued mount subprocess calls are exactly one per spec of the sorted
profile, in sorted order. -/
theorem c2_mount_order_sorted (mntFull profile : List MountSpec)
    (root : String) :
    (magicMountsInit mntFull none none profile root
        (fun _ => false) (fun _ => true)).cmds =
      (sortSpecs mntFull).map
        (fun p => ["mount", p.switch, p.host, pjoin root p.target]) := by
  simp only [magicMountsInit, truthy, magicMount, mountLoop_fresh_ok]
  simp [List.map_map, mountCmdOf, Function.comp]

/-- C3 counterexample: constructing over a host whose mount table already
contains every target issues zero mount subprocess calls (every mount point
is skipped by the idempotent check), yet `umount` then issues an `umount -f`
for each of those pre-existing mount points. -/
theorem c3_skipped_unmounted_counterexample :
    (magicMountsInit MNT_FULL none none MNT_DEFAULT "/c"
        (fun _ => true) (fun _ => true)).cmds = [] ∧
    (magicMountsInit MNT_FULL none none MNT_DEFAULT "/c"
        (fun _ => true) (fun _ => true)).state.map
        (fun st => (magicUmount st).cmds) =
      some [["umount", "-f", "/c/sys"], ["umount", "-f", "/c/run"],
            ["umount", "-f", "/c/proc"], ["umount", "-f", "/c/dev/pts"],
            ["umount", "-f", "/c/dev"]] :=
  ⟨rfl, rfl⟩

/-- C3 (amended): a mount point already present in the host mount table
before `Mount()` ran is skipped without a mount subprocess call but is
marked in `self.mounted` exactly like one mounted by the orchestrator, so
`Unmount()` DOES issue an `umount -f` for it. -/
theorem c3_skipped_mounts_unmounted (st : MMState) (mOk : String → Bool)
    (t : String) (ht : t ∈ st.paths.map (fun p => p.target)) :
    (magicMount st (fun _ => true) mOk).cmds = [] ∧
    dictGet (magicMount st (fun _ => true) mOk).st.mounted t = true ∧
    ["umount", "-f", t] ∈
      (magicUmount (magicMount st (fun _ => true) mOk).st).cmds := by
  have hget : dictGet
      (st.paths.foldl (fun d p => dictSet d p.target true) st.mounted) t =
      true :=
    dictGet_foldl_set_true st.paths st.mounted t (Or.inr ht)
  refine ⟨?_, ?_, ?_⟩
  · simp [magicMount, mountLoop_all_skip]
  · simpa [magicMount, mountLoop_all_skip] using hget
  · have htr : t ∈ st.paths.reverse.map (fun p => p.target) := by
      rw [List.map_reverse, List.mem_reverse]
      exact ht
    simpa [magicMount, magicUmount, mountLoop_all_skip] using
      umountLoop_mem st.paths.reverse
        (st.paths.foldl (fun d p => dictSet d p.target true) st.mounted)
        t hget htr

/-- C3 witness: a concrete pre-mounted `/c/proc` is skipped by `mount` yet
unmounted by `umount`. -/
theorem c3_skipped_mounts_unmounted_witness :
    (magicMount
        ⟨MNT_DEFAULT, [⟨"-t", "proc", "/c/proc"⟩], [("/c/proc", false)],
         none⟩
        (fun _ => true) (fun _ => true)).cmds = [] ∧
    dictGet (magicMount
        ⟨MNT_DEFAULT, [⟨"-t", "proc", "/c/proc"⟩], [("/c/proc", false)],
         none⟩
        (fun _ => true) (fun _ => true)).st.mounted "/c/proc" = true ∧
    ["umount", "-f", "/c/proc"] ∈
      (magicUmount (magicMount
          ⟨MNT_DEFAULT, [⟨"-t", "proc", "/c/proc"⟩], [("/c/proc", false)],
           none⟩
          (fun _ => true) (fun _ => true)).st).cmds :=
  c3_skipped_mounts_unmounted
    ⟨MNT_DEFAULT, [⟨"-t", "proc", "/c/proc"⟩], [("/c/proc", false)], none⟩
    (fun _ => true) "/c/proc" (by decide)

/-- C4: with processed specs `[a, b, c]`, nothing pre-mounted, `a`'s mount
subprocess succeeding and `b`'s failing, `mount` raises `MountError`
immediately: only `a`'s and `b`'s mount commands are issued (`c` is never
attempted) and afterwards the state records `a` mounted by the orchestrator
while `b` and `c` are not. -/
theorem c4_partial_mount_failure (st : MMState) (a b c : MountSpec)
    (isM mOk : String → Bool)
    (hp : st.paths = [a, b, c])
    (hab : a.target ≠ b.target) (hac : a.target ≠ c.target)
    (hia : isM a.target = false) (hib : isM b.target = false)
    (hka : mOk a.target = true) (hkb : mOk b.target = false)
    (hmb : dictGet st.mounted b.target = false)
    (hmc : dictGet st.mounted c.target = false) :
    (magicMount st isM mOk).err = some (PyErr.mountError (mountCmdOf b)) ∧
    (magicMount st isM mOk).cmds = [mountCmdOf a, mountCmdOf b] ∧
    dictGet (magicMount st isM mOk).st.mounted a.target = true ∧
    dictGet (magicMount st isM mOk).st.mounted b.target = false ∧
    dictGet (magicMount st isM mOk).st.mounted c.target = false := by
  have hloop : mountLoop isM mOk [a, b, c] st.mounted =
      (dictSet st.mounted a.target true, [mountCmdOf a, mountCmdOf b],
       some (PyErr.mountError (mountCmdOf b))) := by
    simp [mountLoop, hia, hib, hka, hkb]
  refine ⟨?_, ?_, ?_, ?_, ?_⟩
  · simp [magicMount, hp, hloop]
  · simp [magicMount, hp, hloop]
  · simp only [magicMount, hp, hloop]
    exact dictGet_set_self st.mounted a.target true
  · simp only [magicMount, hp, hloop]
    rw [dictGet_set_ne st.mounted a.target true b.target (Ne.symm hab)]
    exact hmb
  · simp only [magicMount, hp, hloop]
    rw [dictGet_set_ne st.mounted a.target true c.target (Ne.symm hac)]
    exact hmc

/-- C4 witness: a concrete three-spec walk whose second mount fails. -/
theorem c4_partial_mount_failure_witness :
    (magicMount
        ⟨MNT_DEFAULT,
         [⟨"-t", "proc", "/r/a"⟩, ⟨"-t", "sysfs", "/r/b"⟩,
          ⟨"-t", "devpts", "/r/c"⟩],
         [("/r/a", false), ("/r/b", false), ("/r/c", false)], none⟩
        (fun _ => false) (fun t => t != "/r/b")).err =
      some (PyErr.mountError ["mount", "-t", "sysfs", "/r/b"]) ∧
    (magicMount
        ⟨MNT_DEFAULT,
         [⟨"-t", "proc", "/r/a"⟩, ⟨"-t", "sysfs", "/r/b"⟩,
          ⟨"-t", "devpts", "/r/c"⟩],
         [("/r/a", false), ("/r/b", false), ("/r/c", false)], none⟩
        (fun _ => false) (fun t => t != "/r/b")).cmds =
      [["mount", "-t", "proc", "/r/a"], ["mount", "-t", "sysfs", "/r/b"]] ∧
    dictGet (magicMount
        ⟨MNT_DEFAULT,
         [⟨"-t", "proc", "/r/a"⟩, ⟨"-t", "sysfs", "/r/b"⟩,
          ⟨"-t", "devpts", "/r/c"⟩],
         [("/r/a", false), ("/r/b", false), ("/r/c", false)], none⟩
        (fun _ => false) (fun t => t != "/r/b")).st.mounted "/r/a" = true ∧
    dictGet (magicMount
        ⟨MNT_DEFAULT,
         [⟨"-t", "proc", "/r/a"⟩, ⟨"-t", "sysfs", "/r/b"⟩,
          ⟨"-t", "devpts", "/r/c"⟩],
         [("/r/a", false), ("/r/b", false), ("/r/c", false)], none⟩
        (fun _ => false) (fun t => t != "/r/b")).st.mounted "/r/b" = false ∧
    dictGet (magicMount
        ⟨MNT_DEFAULT,
         [⟨"-t", "proc", "/r/a"⟩, ⟨"-t", "sysfs", "/r/b"⟩,
          ⟨"-t", "devpts", "/r/c"⟩],
         [("/r/a", false), ("/r/b", false), ("/r/c", false)], none⟩
        (fun _ => false) (fun t => t != "/r/b")).st.mounted "/r/c" = false :=
  c4_partial_mount_failure
    ⟨MNT_DEFAULT,
     [⟨"-t", "proc", "/r/a"⟩, ⟨"-t", "sysfs", "/r/b"⟩,
      ⟨"-t", "devpts", "/r/c"⟩],
     [("/r/a", false), ("/r/b", false), ("/r/c", false)], none⟩
    ⟨"-t", "proc", "/r/a"⟩ ⟨"-t", "sysfs", "/r/b"⟩ ⟨"-t", "devpts", "/r/c"⟩
    (fun _ => false) (fun t => t != "/r/b")
    rfl (by decide) (by decide) rfl rfl rfl rfl rfl rfl

/-- C5: with processed specs `[a, b, c]`, nothing pre-mounted and every
mount subprocess succeeding, `mount` succeeds issuing the three mount
commands in order, and `umount` then issues the umount commands in the
exact reverse order `[c, b, a]`. -/
theorem c5_umount_reverse_order (st : MMState) (a b c : MountSpec)
    (isM mOk : String → Bool)
    (hp : st.paths = [a, b, c])
    (hab : a.target ≠ b.target) (hac : a.target ≠ c.target)
    (hbc : b.target ≠ c.target)
    (hia : isM a.target = false) (hib : isM b.target = false)
    (hic : isM c.target = false)
    (hka : mOk a.target = true) (hkb : mOk b.target = true)
    (hkc : mOk c.target = true) :
    (magicMount st isM mOk).err = none ∧
    (magicMount st isM mOk).cmds =
      [mountCmdOf a, mountCmdOf b, mountCmdOf c] ∧
    (magicUmount (magicMount st isM mOk).st).cmds =
      [["umount", "-f", c.target], ["umount", "-f", b.target],
       ["umount", "-f", a.target]] := by
  have hloop : mountLoop isM mOk [a, b, c] st.mounted =
      (dictSet (dictSet (dictSet st.mounted a.target true) b.target true)
         c.target true,
       [mountCmdOf a, mountCmdOf b, mountCmdOf c], none) := by
    simp [mountLoop, hia, hib, hic, hka, hkb, hkc]
  have h1 : dictGet
      (dictSet (dictSet (dictSet st.mounted a.target true) b.target true)
        c.target true) c.target = true :=
    dictGet_set_self _ c.target true
  have h2 : dictGet
      (dictSet (dictSet (dictSet (dictSet st.mounted a.target true)
        b.target true) c.target true) c.target false) b.target = true := by
    rw [dictGet_set_ne _ c.target false b.target hbc,
        dictGet_set_ne _ c.target true b.target hbc]
    exact dictGet_set_self _ b.target true
  have h3 : dictGet
      (dictSet (dictSet (dictSet (dictSet (dictSet st.mounted a.target true)
        b.target true) c.target true) c.target false) b.target false)
      a.target = true := by
    rw [dictGet_set_ne _ b.target false a.target hab,
        dictGet_set_ne _ c.target false a.target hac,
        dictGet_set_ne _ c.target true a.target hac,
        dictGet_set_ne _ b.target true a.target hab]
    exact dictGet_set_self st.mounted a.target true
  refine ⟨?_, ?_, ?_⟩
  · simp [magicMount, hp, hloop]
  · simp [magicMount, hp, hloop]
  · simp only [magicMount, hp, hloop, magicUmount]
    simp [umountLoop, h1, h2, h3]

/-- C5 witness: a concrete three-spec mount and its reversed teardown. -/
theorem c5_umount_reverse_order_witness :
    (magicMount
        ⟨MNT_DEFAULT,
         [⟨"-t", "proc", "/r/a"⟩, ⟨"-t", "sysfs", "/r/b"⟩,
          ⟨"-t", "devpts", "/r/c"⟩],
         [("/r/a", false), ("/r/b", false), ("/r/c", false)], none⟩
        (fun _ => false) (fun _ => true)).err = none ∧
    (magicMount
        ⟨MNT_DEFAULT,
         [⟨"-t", "proc", "/r/a"⟩, ⟨"-t", "sysfs", "/r/b"⟩,
          ⟨"-t", "devpts", "/r/c"⟩],
         [("/r/a", false), ("/r/b", false), ("/r/c", false)], none⟩
        (fun _ => false) (fun _ => true)).cmds =
      [["mount", "-t", "proc", "/r/a"], ["mount", "-t", "sysfs", "/r/b"],
       ["mount", "-t", "devpts", "/r/c"]] ∧
    (magicUmount (magicMount
        ⟨MNT_DEFAULT,
         [⟨"-t", "proc", "/r/a"⟩, ⟨"-t", "sysfs", "/r/b"⟩,
          ⟨"-t", "devpts", "/r/c"⟩],
         [("/r/a", false), ("/r/b", false), ("/r/c", false)], none⟩
        (fun _ => false) (fun _ => true)).st).cmds =
      [["umount", "-f", "/r/c"], ["umount", "-f", "/r/b"],
       ["umount", "-f", "/r/a"]] :=
  c5_umount_reverse_order
    ⟨MNT_DEFAULT,
     [⟨"-t", "proc", "/r/a"⟩, ⟨"-t", "sysfs", "/r/b"⟩,
      ⟨"-t", "devpts", "/r/c"⟩],
     [("/r/a", false), ("/r/b", false), ("/r/c", false)], none⟩
    ⟨"-t", "proc", "/r/a"⟩ ⟨"-t", "sysfs", "/r/b"⟩ ⟨"-t", "devpts", "/r/c"⟩
    (fun _ => false) (fun _ => true)
    rfl (by decide) (by decide) (by decide) rfl rfl rfl rfl rfl rfl

/-- C6: calling `umount` twice in a row issues umount subprocess calls only
on the first call; the second call issues none and returns the state
unchanged (the mounted flags were already cleared by the first call,
regardless of the first call's subprocess outcomes, which are ignored). -/
theorem c6_umount_idempotent (st : MMState) :
    (magicUmount (magicUmount st).st).cmds = [] ∧
    (magicUmount (magicUmount st).st).st = (magicUmount st).st := by
  have hall : ∀ p ∈ st.paths.reverse,
      dictGet (umountLoop st.mounted st.paths.reverse).1 p.target = false :=
    fun p hp =>
      dictGet_umountLoop st.paths.reverse st.mounted p.target
        (Or.inr (List.mem_map.2 ⟨p, hp, rfl⟩))
  have hno := umountLoop_noop st.paths.reverse
    (umountLoop st.mounted st.paths.reverse).1 hall
  constructor
  · simp [magicUmount, hno]
  · simp [magicUmount, hno]

/-- C7: `_prepare_command` (hence `run`, which spawns only the payload of a
successful result) raises `ChrootError` whenever one of the argument tokens
is literally `>`, `<` or `|`, before any subprocess is spawned; otherwise
every token is individually shell-quoted and the spawned invocation is
`chroot <root> sh -c <space-joined quoted tokens>`. -/
theorem c7_prepare_command (chrPath : String) (commands : List String) :
    ((commands.contains ">" = true ∨ commands.contains "<" = true ∨
        commands.contains "|" = true) →
      prepareCommand chrPath commands =
        Except.error (PyErr.chrootError prepareErrMsg)) ∧
    ((commands.contains ">" = false ∧ commands.contains "<" = false ∧
        commands.contains "|" = false) →
      prepareCommand chrPath commands =
        Except.ok (["chroot", chrPath, "sh", "-c",
          joinSpace (commands.map shlexQuote)])) := by
  constructor
  · intro h
    have hcond : (commands.contains ">" || commands.contains "<" ||
        commands.contains "|") = true := by
      rcases h with h | h | h <;> rw [h] <;> simp
    simp only [prepareCommand]
    rw [hcond]
    simp
  · rintro ⟨h1, h2, h3⟩
    have hcond : (commands.contains ">" || commands.contains "<" ||
        commands.contains "|") = false := by
      rw [h1, h2, h3]
      simp
    simp only [prepareCommand]
    rw [hcond]
    simp

/-- C7 witness: a rejected redirect token and an accepted plain command. -/
theorem c7_prepare_command_witness :
    prepareCommand "/r" ["ls", ">", "/etc/passwd"] =
      Except.error (PyErr.chrootError prepareErrMsg) ∧
    prepareCommand "/r" ["echo", "abc"] =
      Except.ok ["chroot", "/r", "sh", "-c", "echo abc"] :=
  ⟨(c7_prepare_command "/r" ["ls", ">", "/etc/passwd"]).1 (Or.inl rfl),
   (c7_prepare_command "/r" ["echo", "abc"]).2 ⟨rfl, rfl, rfl⟩⟩

/-- C8: when the target architecture (`FAB_ARCH`) is declared (truthy) but
no host architecture (`HOST_ARCH`) is declared, construction raises
`ChrootError` and issues no mount subprocess call at all. -/
theorem c8_arch_config_error (mntFull : List MountSpec)
    (hostArch fabArch : Option String) (profile : List MountSpec)
    (root : String) (isM mOk : String → Bool)
    (hf : truthy fabArch = true) (hh : truthy hostArch = false) :
    magicMountsInit mntFull hostArch fabArch profile root isM mOk =
      { mntFullOut := mntFull, state := none, cmds := [], copies := [],
        err := some (PyErr.chrootError archErrMsg) } := by
  simp [magicMountsInit, hf, hh]

/-- C8 witness: `FAB_ARCH=arm64` with `HOST_ARCH` unset. -/
theorem c8_arch_config_error_witness :
    magicMountsInit MNT_FULL none (some "arm64") MNT_DEFAULT "/c"
        (fun _ => false) (fun _ => true) =
      { mntFullOut := MNT_FULL, state := none, cmds := [], copies := [],
        err := some (PyErr.chrootError archErrMsg) } :=
  c8_arch_config_error MNT_FULL none (some "arm64") MNT_DEFAULT "/c"
    (fun _ => false) (fun _ => true) rfl rfl

/-- C9: `is_mounted` compares the second field of each mount-table record
with the ORIGINAL query object.  For a table containing a record whose
guest path is `/proc`, the `str` query `/proc` returns `True`, but the
equivalent `pathlib` (non-`str` path-like) query returns `False`, because
Python's `==` between a `str` field and a non-`str` path object is always
`False` — contradicting the function's own docstring. -/
theorem c9_pathlike_is_mounted_bug :
    pyIsMounted ["proc /proc proc rw,nosuid 0 0"]
      (PyPath.pathLike "/proc") = some false ∧
    pyIsMounted ["proc /proc proc rw,nosuid 0 0"]
      (PyPath.ofStr "/proc") = some true ∧
    (pySplitSpace "proc /proc proc rw,nosuid 0 0")[1]? = some "/proc" :=
  ⟨rfl, rfl, rfl⟩

/-- C10: constructing under an architecture mismatch appends the
`binfmt_misc` bind-mount entry to the shared module-level `MNT_FULL` list in
place; a later orchestrator constructed in the same process with no
emulation configured still uses the extended list as its profile, and a
second mismatched construction appends the entry again. -/
theorem c10_mnt_full_mutation (mntFull : List MountSpec)
    (host fab : Option String) (profile p2 p3 : List MountSpec)
    (root r2 r3 : String) (isM mOk mOk2 isM3 mOk3 : String → Bool)
    (hh : truthy host = true) (hf : truthy fab = true) (hne : host ≠ fab) :
    (magicMountsInit mntFull host fab profile root isM mOk).mntFullOut =
      mntFull ++ [MNT_ARM_ON_AMD] ∧
    (magicMountsInit
        (magicMountsInit mntFull host fab profile root isM mOk).mntFullOut
        none none p2 r2 (fun _ => true) mOk2).state.map MMState.profile =
      some (mntFull ++ [MNT_ARM_ON_AMD]) ∧
    (magicMountsInit
        (magicMountsInit mntFull host fab profile root isM mOk).mntFullOut
        host fab p3 r3 isM3 mOk3).mntFullOut =
      mntFull ++ [MNT_ARM_ON_AMD, MNT_ARM_ON_AMD] := by
  have hb : (host != fab) = true := bne_iff_ne.2 hne
  have h1 : (magicMountsInit mntFull host fab profile root isM mOk).mntFullOut
      = mntFull ++ [MNT_ARM_ON_AMD] := by
    simp [magicMountsInit, hf, hh, hb]
  refine ⟨h1, ?_, ?_⟩
  · rw [h1]
    simp [magicMountsInit, truthy, magicMount, mountLoop_all_skip]
  · rw [h1]
    simp [magicMountsInit, hf, hh, hb]

/-- C10 witness: `HOST_ARCH=amd64`, `FAB_ARCH=arm64`. -/
theorem c10_mnt_full_mutation_witness :
    (magicMountsInit MNT_FULL (some "amd64") (some "arm64") MNT_DEFAULT "/c"
        (fun _ => true) (fun _ => true)).mntFullOut =
      MNT_FULL ++ [MNT_ARM_ON_AMD] ∧
    (magicMountsInit
        (magicMountsInit MNT_FULL (some "amd64") (some "arm64") MNT_DEFAULT
          "/c" (fun _ => true) (fun _ => true)).mntFullOut
        none none MNT_DEFAULT "/c2" (fun _ => true)
        (fun _ => true)).state.map MMState.profile =
      some (MNT_FULL ++ [MNT_ARM_ON_AMD]) ∧
    (magicMountsInit
        (magicMountsInit MNT_FULL (some "amd64") (some "arm64") MNT_DEFAULT
          "/c" (fun _ => true) (fun _ => true)).mntFullOut
        (some "amd64") (some "arm64") MNT_DEFAULT "/c3" (fun _ => true)
        (fun _ => true)).mntFullOut =
      MNT_FULL ++ [MNT_ARM_ON_AMD, MNT_ARM_ON_AMD] :=
  c10_mnt_full_mutation MNT_FULL (some "amd64") (some "arm64") MNT_DEFAULT
    MNT_DEFAULT MNT_DEFAULT "/c" "/c2" "/c3" (fun _ => true) (fun _ => true)
    (fun _ => true) (fun _ => true) (fun _ => true) rfl rfl (by decide)

end TurnkeyChroot
